import Mathlib

/-! # Verification of the mlflow_cli_tools run serialization subsystem

This file gives a shallow embedding of the type-preserving run
serialization/reconstruction subsystem of the repository: the Record Encoder
and Metadata Ledger of `export_exp.py` (`export_runs_detailed`), the Record
Decoder and Import Driver of `import_exp.py` (`extract_run_data`,
`import_runs`), the export pagination loop, the artifact mirror loops of both
directions, and the run-deletion loop of `clear_runs.py`
(`delete_all_runs_in_experiment`).

Modelling conventions: Python floats are modelled as exact rationals (`ℚ`);
cells of the flat tabular representation are `Value`s (string, number, or
missing); Python dicts keyed by strings are association lists with dict
assignment semantics (`dictInsert`); calls to the external tracking service
that may raise are modelled by `Except`-valued oracles supplied as arguments;
printed warnings of the decoder are collected in a `warnings` list.
-/

namespace MlflowCliTools

/-- Scalar cell values of the flat tabular representation: `vStr` models a
Python string, `vNum` models a floating-point number as an exact rational,
`vNull` models a missing cell (pandas `NaN`/`None`). -/
inductive Value where
  | vStr : String → Value
  | vNum : ℚ → Value
  | vNull : Value
deriving DecidableEq

/-- Model of `pd.isna` on one cell. -/
def pyIsNa : Value → Bool
  | .vNull => true
  | _ => false

/-- Model of Python `str(·)` on a cell value; the rendering of numbers
abstracts the decimal rendering of floats. -/
def pyStr : Value → String
  | .vStr s => s
  | .vNum q => toString q
  | .vNull => "nan"

/-- Parse a nonempty run of decimal digit characters into a natural number. -/
def parseNatDigits (cs : List Char) : Option ℕ :=
  if cs.isEmpty then none
  else cs.foldl (fun acc c =>
    match acc with
    | none => none
    | some n => if c.isDigit then some (n * 10 + (c.toNat - 48)) else none) (some 0)

/-- Model of Python `float(·)` applied to a string: an optionally signed
decimal numeral with at most one decimal point. Exotic float spellings
(exponents, `inf`, `nan`, surrounding whitespace) are not exercised by the
repository and are mapped to a parse failure. -/
def parseRat (s : String) : Option ℚ :=
  let (neg, body) :=
    match s.data with
    | '-' :: rest => (true, rest)
    | '+' :: rest => (false, rest)
    | cs => (false, cs)
  let intFrac := body.span (fun c => c != '.')
  let mag : Option ℚ :=
    match intFrac.2 with
    | [] => (parseNatDigits intFrac.1).map (fun n => mkRat n 1)
    | _ :: fracPart =>
      if fracPart.any (fun c => c == '.') then none
      else if fracPart.isEmpty then (parseNatDigits intFrac.1).map (fun n => mkRat n 1)
      else
        match parseNatDigits (if intFrac.1.isEmpty then ['0'] else intFrac.1),
              parseNatDigits fracPart with
        | some i, some f =>
          some (mkRat ((i * 10 ^ fracPart.length + f : ℕ) : ℤ) (10 ^ fracPart.length))
        | _, _ => none
  mag.map (fun q => if neg then -q else q)

/-- Model of Python `float(·)` on a cell: a number converts to itself, a
string is parsed, a missing cell fails. -/
def pyFloat : Value → Option ℚ
  | .vNum q => some q
  | .vStr s => parseRat s
  | .vNull => none

/-- Model of Python `abs(·)` on a float. -/
def ratAbs (q : ℚ) : ℚ := if q < 0 then -q else q

/-- Model of Python `str.startswith`. -/
def strStartsWith (s p : String) : Bool := p.data.isPrefixOf s.data

/-- Model of the Python slice `s[n:]`. -/
def strDrop (s : String) (n : ℕ) : String := ⟨s.data.drop n⟩

/-- The Metadata Ledger: the three column-name lists of the metadata JSON
side file (`{"parameters": [...], "metrics": [...], "tags": [...]}`). -/
structure Metadata where
  parameters : List String
  metrics : List String
  tags : List String
deriving DecidableEq

/-- The empty ledger, as built by `import_runs` when no metadata file is
available. -/
def emptyMetadata : Metadata := ⟨[], [], []⟩

/-- The warnings printed by `extract_run_data`, one constructor per `print`
site: a metric value that failed float conversion, a bare column inferred as
a metric, and a bare non-numeric column inferred as a parameter. -/
inductive Warning where
  | metricParseFail : String → Value → Warning
  | inferMetric : String → Warning
  | inferParam : String → Warning
deriving DecidableEq

/-- The decoder output: the three dictionaries returned by
`extract_run_data` plus the warnings it printed while decoding. -/
structure DecodeState where
  params : List (String × String)
  metrics : List (String × ℚ)
  tags : List (String × String)
  warnings : List Warning
deriving DecidableEq

/-- The decoder state before any column is processed. -/
def initState : DecodeState := ⟨[], [], [], []⟩

/-- Python dict assignment `d[k] = v` on an association list: overwrite in
place when the key is present, append otherwise. -/
def dictInsert {α : Type} (k : String) (v : α) (d : List (String × α)) : List (String × α) :=
  if d.any (fun p => p.1 == k) then
    d.map (fun p => if p.1 == k then (k, v) else p)
  else d ++ [(k, v)]

/-- The fixed system columns of `extract_run_data`, never treated as data. -/
def system_columns : List String :=
  ["run_id", "experiment_id", "user_id", "start_time", "end_time", "status", "lifecycle_stage"]

/-- One iteration of the column loop of `extract_run_data`: skip missing and
system cells, then route by recognized prefix, then by ledger membership,
then fall back to value-shape inference (an integer-like float of magnitude
below 1000 becomes a parameter silently; any other parseable float becomes a
metric with a warning; a non-numeric value becomes a parameter with a
warning). -/
def processColumn (meta : Metadata) (st : DecodeState) : String × Value → DecodeState
  | (col, v) =>
  if pyIsNa v = true ∨ col ∈ system_columns then st
  else if strStartsWith col "param:" = true then
    { st with params := dictInsert (strDrop col 6) (pyStr v) st.params }
  else if strStartsWith col "metric:" = true then
    match pyFloat v with
    | some q => { st with metrics := dictInsert (strDrop col 7) q st.metrics }
    | none => { st with warnings := st.warnings ++ [Warning.metricParseFail (strDrop col 7) v] }
  else if strStartsWith col "tag:" = true then
    { st with tags := dictInsert (strDrop col 4) (pyStr v) st.tags }
  else if col ∈ meta.parameters then
    { st with params := dictInsert col (pyStr v) st.params }
  else if col ∈ meta.metrics then
    match pyFloat v with
    | some q => { st with metrics := dictInsert col q st.metrics }
    | none => { st with warnings := st.warnings ++ [Warning.metricParseFail col v] }
  else if col ∈ meta.tags then
    { st with tags := dictInsert col (pyStr v) st.tags }
  else
    match pyFloat v with
    | some q =>
      if q.den = 1 ∧ ratAbs q < 1000 then
        { st with params := dictInsert col (pyStr v) st.params }
      else
        { st with metrics := dictInsert col q st.metrics,
                  warnings := st.warnings ++ [Warning.inferMetric col] }
    | none =>
      { st with params := dictInsert col (pyStr v) st.params,
                warnings := st.warnings ++ [Warning.inferParam col] }

/-- The Record Decoder `extract_run_data`: fold the column loop over the flat
row. -/
def extract_run_data (row : List (String × Value)) (meta : Metadata) : DecodeState :=
  row.foldl (processColumn meta) initState

/-- The fixed system fields of one run entity (`run.info`). -/
structure RunInfo where
  run_id : String
  experiment_id : String
  user_id : String
  start_time : Int
  end_time : Int
  status : String
  lifecycle_stage : String

/-- The three key/value groups of one run entity (`run.data`), as the
association lists of its dictionaries. -/
structure RunData where
  params : List (String × String)
  metrics : List (String × ℚ)
  tags : List (String × String)

/-- The Record Encoder of `export_runs_detailed`: one run's flat row, with
the system columns first and then the `metric:`-, `param:`- and
`tag:`-prefixed data columns, in the order the source emits them. -/
def encodeRun (info : RunInfo) (data : RunData) : List (String × Value) :=
  [("run_id", Value.vStr info.run_id),
   ("experiment_id", Value.vStr info.experiment_id),
   ("user_id", Value.vStr info.user_id),
   ("start_time", Value.vNum (mkRat info.start_time 1)),
   ("end_time", Value.vNum (mkRat info.end_time 1)),
   ("status", Value.vStr info.status),
   ("lifecycle_stage", Value.vStr info.lifecycle_stage)]
  ++ data.metrics.map (fun p => ("metric:" ++ p.1, Value.vNum p.2))
  ++ data.params.map (fun p => ("param:" ++ p.1, Value.vStr p.2))
  ++ data.tags.map (fun p => ("tag:" ++ p.1, Value.vStr p.2))

/-- Append a column name to a ledger group if absent, mirroring the
`if column_name not in metadata[...]: append` bookkeeping of the export. -/
def addIfAbsent (x : String) (l : List String) : List String :=
  if x ∈ l then l else l ++ [x]

/-- Metadata Ledger accumulation over one run of the export loop. -/
def observeRun (meta : Metadata) (data : RunData) : Metadata :=
  { parameters := data.params.foldl (fun l p => addIfAbsent ("param:" ++ p.1) l) meta.parameters
    metrics := data.metrics.foldl (fun l p => addIfAbsent ("metric:" ++ p.1) l) meta.metrics
    tags := data.tags.foldl (fun l p => addIfAbsent ("tag:" ++ p.1) l) meta.tags }

/-- The Metadata Ledger accumulated by exporting a list of runs. -/
def exportLedger (runs : List RunData) : Metadata :=
  runs.foldl observeRun emptyMetadata

/-- The page-size bound used by `export_runs_detailed`. -/
def max_results_per_page : ℕ := 5000

/-- One tracking-server `search_runs` request: a page of at most `pageSize`
runs starting at the offset carried by the continuation token (`none` means
the first page), together with the next continuation token, which is absent
exactly when the final run has been served. -/
def searchPage {α : Type} (runs : List α) (pageSize : ℕ) (token : Option ℕ) :
    List α × Option ℕ :=
  let o := token.getD 0
  ((runs.drop o).take pageSize,
   if o + pageSize < runs.length then some (o + pageSize) else none)

/-- The export's pagination `while` loop: request a page, accumulate its
runs, follow the continuation token, and stop exactly when the token is
absent. The `fuel` argument bounds the number of requests so that the
recursion is structural; `export_runs_paged` supplies enough fuel to reach
the absent token. -/
def pageLoop {α : Type} (runs : List α) (pageSize : ℕ) : ℕ → Option ℕ → List α
  | 0, _ => []
  | fuel + 1, token =>
    let pr := searchPage runs pageSize token
    match pr.2 with
    | none => pr.1
    | some t => pr.1 ++ pageLoop runs pageSize fuel (some t)

/-- All run entities retrieved by the export's pagination loop, starting
from the absent token. -/
def export_runs_paged {α : Type} (runs : List α) (pageSize : ℕ) : List α :=
  pageLoop runs pageSize (runs.length + 1) none

/-- The summary record written by `import_runs` (the experiment identity and
tracking URI fields are omitted as they carry no per-row information). -/
structure ImportSummary where
  total_runs_attempted : ℕ
  successful_imports : ℕ
  failed_imports : ℕ
  failed_run_indices : List ℕ
deriving DecidableEq

/-- Whether an `Except` result is a success. -/
def exceptOk {ε α : Type} : Except ε α → Bool
  | .ok _ => true
  | .error _ => false

/-- One iteration of the Import Driver loop of `import_runs`: decode the row
with `extract_run_data`, then perform the tracking-server effects of the
`with mlflow.start_run(...)` block (run creation, logging, artifact upload),
modelled by the oracle `act`, which receives the row index and the decoded
row and either returns the new run id or raises. A raising row is appended
to `failed_runs` and the loop continues with the next row. -/
def importStep (meta : Metadata) (act : ℕ → DecodeState → Except String String)
    (acc : List String × List ℕ) (ir : ℕ × List (String × Value)) : List String × List ℕ :=
  let decoded := extract_run_data ir.2 meta
  match act ir.1 decoded with
  | .ok rid => (acc.1 ++ [rid], acc.2)
  | .error _ => (acc.1, acc.2 ++ [ir.1])

/-- The Import Driver `import_runs`: fold the per-row body over the indexed
rows, then build the summary record from the accumulated `imported_runs` and
`failed_runs` lists. -/
def import_runs (rows : List (List (String × Value))) (meta : Metadata)
    (act : ℕ → DecodeState → Except String String) : ImportSummary :=
  let final := rows.enum.foldl (importStep meta act) ([], [])
  { total_runs_attempted := rows.length
    successful_imports := final.1.length
    failed_imports := final.2.length
    failed_run_indices := final.2 }

/-- Export-direction artifact copy for one run: the source wraps the whole
per-artifact loop of a run in a single `try`, so copying stops at the first
failing artifact of that run. Returns the artifacts actually attempted, in
order, and the error (if any) that ended the loop. -/
def exportRunArtifacts (arts : List String) (download : String → Except String Unit) :
    List String × Option String :=
  match arts with
  | [] => ([], none)
  | a :: rest =>
    match download a with
    | .ok _ =>
      let r := exportRunArtifacts rest download
      (a :: r.1, r.2)
    | .error e => ([a], some e)

/-- Export-direction artifact phase over all runs: each run's artifact copy
is guarded by its own `try`, so no run's failure stops the loop over runs. -/
def exportArtifactsPhase (runsArts : List (String × List String))
    (download : String → String → Except String Unit) :
    List (String × (List String × Option String)) :=
  runsArts.map (fun ra => (ra.1, exportRunArtifacts ra.2 (download ra.1)))

/-- One iteration of the import-direction per-file artifact loop: a
successful upload increments `artifact_count`, a raising upload is logged
(collected here) and skipped. -/
def uploadStep (upload : String → Except String Unit) (acc : ℕ × List String) (f : String) :
    ℕ × List String :=
  match upload f with
  | .ok _ => (acc.1 + 1, acc.2)
  | .error _ => (acc.1, acc.2 ++ [f])

/-- Import-direction artifact upload for one run: the `try` of the source
sits inside the per-file loop, so every file is attempted; a failing file is
logged and skipped. Returns the successful upload count (`artifact_count`)
and the files whose upload raised. -/
def importRunArtifacts (files : List String) (upload : String → Except String Unit) :
    ℕ × List String :=
  files.foldl (uploadStep upload) (0, [])

/-- Server-side cap of a `search_runs` call: at most `maxResults` runs are
returned, with no continuation. -/
def searchRunsCapped {α : Type} (runs : List α) (maxResults : ℕ) : List α :=
  runs.take maxResults

/-- The deletion loop of `clear_runs.py`: one search capped at 50000
results, then `delete_run` on each returned run. The returned list is the
runs deleted, in order. -/
def delete_all_runs_in_experiment {α : Type} (runs : List α) : List α :=
  (searchRunsCapped runs 50000).foldl (fun acc r => acc ++ [r]) []

/-- Sample run info used to evaluate the theorems on concrete inputs. -/
def sampleInfo : RunInfo := ⟨"run-1", "exp-1", "alice", 0, 1, "FINISHED", "active"⟩

/-- Sample run data (the worked example of the repository: parameter
`lr=0.01`, metric `loss=0.53`, tag `owner=alice`). -/
def sampleData : RunData :=
  ⟨[("lr", "0.01")], [("loss", mkRat 53 100)], [("owner", "alice")]⟩

/-- A flat row whose only data column is a metric with an unparsable value. -/
def badMetricRow : List (String × Value) := [("metric:loss", Value.vStr "abc")]

/-- A tracking-server oracle whose effects always succeed. -/
def actAlwaysOk : ℕ → DecodeState → Except String String :=
  fun _ _ => Except.ok "new-run"

/-- A tracking-server oracle that raises exactly on row index 0. -/
def actFailFirst : ℕ → DecodeState → Except String String :=
  fun i _ => if i = 0 then Except.error "request failed" else Except.ok "new-run"

/-- Two well-formed sample rows for exercising the Import Driver. -/
def sampleRows : List (List (String × Value)) :=
  [[("param:a", Value.vStr "1")], [("param:b", Value.vStr "2")]]

/-- An artifact transfer that fails on artifact `"a1"` and succeeds
elsewhere. -/
def dlFailFirst : String → Except String Unit :=
  fun a => if a = "a1" then Except.error "io error" else Except.ok ()

/-- An artifact transfer that always succeeds. -/
def dlAllOk : String → Except String Unit := fun _ => Except.ok ()

/-- A per-run artifact download oracle that fails on artifact `"a1"` of any
run. -/
def dlPerRun : String → String → Except String Unit := fun _ => dlFailFirst

/-! ## Helper lemmas about strings and column routing -/

theorem str_data_append (s t : String) : (s ++ t).data = s.data ++ t.data := by
  cases s
  cases t
  rfl

theorem strStartsWith_append (p k : String) : strStartsWith (p ++ k) p = true := by
  unfold strStartsWith
  rw [str_data_append]
  exact List.isPrefixOf_iff_prefix.mpr (List.prefix_append _ _)

theorem metric_col_not_param (k : String) :
    strStartsWith ("metric:" ++ k) "param:" = false := by
  unfold strStartsWith
  rw [str_data_append]
  rfl

theorem tag_col_not_param (k : String) :
    strStartsWith ("tag:" ++ k) "param:" = false := by
  unfold strStartsWith
  rw [str_data_append]
  rfl

theorem tag_col_not_metric (k : String) :
    strStartsWith ("tag:" ++ k) "metric:" = false := by
  unfold strStartsWith
  rw [str_data_append]
  rfl

theorem strDrop_param_col (k : String) : strDrop ("param:" ++ k) 6 = k := by
  unfold strDrop
  rw [str_data_append]
  rfl

theorem strDrop_metric_col (k : String) : strDrop ("metric:" ++ k) 7 = k := by
  unfold strDrop
  rw [str_data_append]
  rfl

theorem strDrop_tag_col (k : String) : strDrop ("tag:" ++ k) 4 = k := by
  unfold strDrop
  rw [str_data_append]
  rfl

theorem append_ne_of_headD (p k t : String)
    (h : p.data.headD ' ' ≠ t.data.headD ' ') (hp : p.data ≠ []) : p ++ k ≠ t := by
  intro he
  apply h
  have hd := congrArg String.data he
  rw [str_data_append] at hd
  rw [← hd]
  cases hp2 : p.data with
  | nil => exact absurd hp2 hp
  | cons c cs => rfl

theorem param_col_not_system (k : String) : ("param:" ++ k) ∉ system_columns := by
  intro h
  simp only [system_columns, List.mem_cons, List.not_mem_nil, or_false] at h
  rcases h with h | h | h | h | h | h | h
  all_goals exact append_ne_of_headD _ k _ (by decide) (by decide) h

theorem metric_col_not_system (k : String) : ("metric:" ++ k) ∉ system_columns := by
  intro h
  simp only [system_columns, List.mem_cons, List.not_mem_nil, or_false] at h
  rcases h with h | h | h | h | h | h | h
  all_goals exact append_ne_of_headD _ k _ (by decide) (by decide) h

theorem tag_col_not_system (k : String) : ("tag:" ++ k) ∉ system_columns := by
  intro h
  simp only [system_columns, List.mem_cons, List.not_mem_nil, or_false] at h
  rcases h with h | h | h | h | h | h | h
  all_goals exact append_ne_of_headD _ k _ (by decide) (by decide) h

theorem dictInsert_append {α : Type} (k : String) (v : α) (d : List (String × α))
    (h : k ∉ d.map Prod.fst) : dictInsert k v d = d ++ [(k, v)] := by
  have hc : ¬ (d.any (fun p => p.1 == k) = true) := by
    rw [List.any_eq_true]
    rintro ⟨p, hp, he⟩
    rw [beq_iff_eq] at he
    exact h (he ▸ List.mem_map_of_mem Prod.fst hp)
  unfold dictInsert
  rw [if_neg hc]

theorem processColumn_system (meta : Metadata) (st : DecodeState) (col : String) (v : Value)
    (h : col ∈ system_columns) : processColumn meta st (col, v) = st := by
  simp only [processColumn]
  rw [if_pos (Or.inr h)]

theorem processColumn_param (meta : Metadata) (st : DecodeState) (k s : String) :
    processColumn meta st ("param:" ++ k, Value.vStr s)
      = { st with params := dictInsert k s st.params } := by
  have h1 : ¬ (pyIsNa (Value.vStr s) = true ∨ ("param:" ++ k) ∈ system_columns) := by
    rintro (h | h)
    · simp [pyIsNa] at h
    · exact param_col_not_system k h
  simp only [processColumn]
  rw [if_neg h1, if_pos (strStartsWith_append "param:" k), strDrop_param_col]
  rfl

theorem processColumn_metric_num (meta : Metadata) (st : DecodeState) (k : String) (q : ℚ) :
    processColumn meta st ("metric:" ++ k, Value.vNum q)
      = { st with metrics := dictInsert k q st.metrics } := by
  have h1 : ¬ (pyIsNa (Value.vNum q) = true ∨ ("metric:" ++ k) ∈ system_columns) := by
    rintro (h | h)
    · simp [pyIsNa] at h
    · exact metric_col_not_system k h
  have h2 : ¬ (strStartsWith ("metric:" ++ k) "param:" = true) := by
    rw [metric_col_not_param]
    exact Bool.false_ne_true
  simp only [processColumn]
  rw [if_neg h1, if_neg h2, if_pos (strStartsWith_append "metric:" k), strDrop_metric_col]
  rfl

theorem processColumn_tag (meta : Metadata) (st : DecodeState) (k s : String) :
    processColumn meta st ("tag:" ++ k, Value.vStr s)
      = { st with tags := dictInsert k s st.tags } := by
  have h1 : ¬ (pyIsNa (Value.vStr s) = true ∨ ("tag:" ++ k) ∈ system_columns) := by
    rintro (h | h)
    · simp [pyIsNa] at h
    · exact tag_col_not_system k h
  have h2 : ¬ (strStartsWith ("tag:" ++ k) "param:" = true) := by
    rw [tag_col_not_param]
    exact Bool.false_ne_true
  have h3 : ¬ (strStartsWith ("tag:" ++ k) "metric:" = true) := by
    rw [tag_col_not_metric]
    exact Bool.false_ne_true
  simp only [processColumn]
  rw [if_neg h1, if_neg h2, if_neg h3, if_pos (strStartsWith_append "tag:" k), strDrop_tag_col]
  rfl

theorem processColumn_metric_parse_fail (meta : Metadata) (st : DecodeState) (k : String)
    (v : Value) (hna : pyIsNa v = false) (hq : pyFloat v = none) :
    processColumn meta st ("metric:" ++ k, v)
      = { st with warnings := st.warnings ++ [Warning.metricParseFail k v] } := by
  have hc1 : ¬ (pyIsNa v = true ∨ ("metric:" ++ k) ∈ system_columns) := by
    rintro (h | h)
    · rw [hna] at h
      exact Bool.noConfusion h
    · exact metric_col_not_system k h
  have hc2 : ¬ (strStartsWith ("metric:" ++ k) "param:" = true) := by
    rw [metric_col_not_param]
    exact Bool.false_ne_true
  simp only [processColumn]
  rw [if_neg hc1, if_neg hc2, if_pos (strStartsWith_append "metric:" k), strDrop_metric_col]
  simp only [hq]

theorem processColumn_ledger_metric_fail (meta : Metadata) (st : DecodeState) (col : String)
    (v : Value) (hna : pyIsNa v = false)
    (hsys : col ∉ system_columns)
    (h1 : strStartsWith col "param:" = false)
    (h2 : strStartsWith col "metric:" = false)
    (h3 : strStartsWith col "tag:" = false)
    (hm1 : col ∉ meta.parameters) (hmem : col ∈ meta.metrics) (hq : pyFloat v = none) :
    processColumn meta st (col, v)
      = { st with warnings := st.warnings ++ [Warning.metricParseFail col v] } := by
  have hc1 : ¬ (pyIsNa v = true ∨ col ∈ system_columns) := by
    rintro (h | h)
    · rw [hna] at h
      exact Bool.noConfusion h
    · exact hsys h
  have hc2 : ¬ (strStartsWith col "param:" = true) := by
    rw [h1]
    exact Bool.false_ne_true
  have hc3 : ¬ (strStartsWith col "metric:" = true) := by
    rw [h2]
    exact Bool.false_ne_true
  have hc4 : ¬ (strStartsWith col "tag:" = true) := by
    rw [h3]
    exact Bool.false_ne_true
  simp only [processColumn]
  rw [if_neg hc1, if_neg hc2, if_neg hc3, if_neg hc4, if_neg hm1, if_pos hmem]
  simp only [hq]

theorem processColumn_fallback (meta : Metadata) (st : DecodeState) (col : String) (v : Value)
    (hna : pyIsNa v = false)
    (hsys : col ∉ system_columns)
    (h1 : strStartsWith col "param:" = false)
    (h2 : strStartsWith col "metric:" = false)
    (h3 : strStartsWith col "tag:" = false)
    (hm1 : col ∉ meta.parameters) (hm2 : col ∉ meta.metrics) (hm3 : col ∉ meta.tags) :
    processColumn meta st (col, v)
      = match pyFloat v with
        | some q =>
          if q.den = 1 ∧ ratAbs q < 1000 then
            { st with params := dictInsert col (pyStr v) st.params }
          else
            { st with metrics := dictInsert col q st.metrics,
                      warnings := st.warnings ++ [Warning.inferMetric col] }
        | none =>
          { st with params := dictInsert col (pyStr v) st.params,
                    warnings := st.warnings ++ [Warning.inferParam col] } := by
  have hc1 : ¬ (pyIsNa v = true ∨ col ∈ system_columns) := by
    rintro (h | h)
    · rw [hna] at h
      exact Bool.noConfusion h
    · exact hsys h
  have hc2 : ¬ (strStartsWith col "param:" = true) := by
    rw [h1]
    exact Bool.false_ne_true
  have hc3 : ¬ (strStartsWith col "metric:" = true) := by
    rw [h2]
    exact Bool.false_ne_true
  have hc4 : ¬ (strStartsWith col "tag:" = true) := by
    rw [h3]
    exact Bool.false_ne_true
  simp only [processColumn]
  rw [if_neg hc1, if_neg hc2, if_neg hc3, if_neg hc4, if_neg hm1, if_neg hm2, if_neg hm3]

/-! ## Round-trip of the Record Encoder and Record Decoder -/

theorem foldl_system_block (meta : Metadata) (st : DecodeState) (info : RunInfo) :
    List.foldl (processColumn meta) st
      [("run_id", Value.vStr info.run_id),
       ("experiment_id", Value.vStr info.experiment_id),
       ("user_id", Value.vStr info.user_id),
       ("start_time", Value.vNum (mkRat info.start_time 1)),
       ("end_time", Value.vNum (mkRat info.end_time 1)),
       ("status", Value.vStr info.status),
       ("lifecycle_stage", Value.vStr info.lifecycle_stage)] = st := by
  simp only [List.foldl_cons, List.foldl_nil]
  rw [processColumn_system meta st "run_id" _ (by decide)]
  rw [processColumn_system meta st "experiment_id" _ (by decide)]
  rw [processColumn_system meta st "user_id" _ (by decide)]
  rw [processColumn_system meta st "start_time" _ (by decide)]
  rw [processColumn_system meta st "end_time" _ (by decide)]
  rw [processColumn_system meta st "status" _ (by decide)]
  rw [processColumn_system meta st "lifecycle_stage" _ (by decide)]

theorem foldl_metric_block (meta : Metadata) (ms : List (String × ℚ)) :
    ∀ (a : List (String × String)) (b : List (String × ℚ)) (c : List (String × String))
      (w : List Warning),
    (∀ p ∈ ms, p.1 ∉ b.map Prod.fst) → (ms.map Prod.fst).Nodup →
    List.foldl (processColumn meta) ⟨a, b, c, w⟩
        (ms.map (fun p => ("metric:" ++ p.1, Value.vNum p.2)))
      = ⟨a, b ++ ms, c, w⟩ := by
  induction ms with
  | nil =>
    intro a b c w _ _
    simp
  | cons p rest ih =>
    obtain ⟨k, q⟩ := p
    intro a b c w hd hnd
    rw [List.map_cons, List.foldl_cons, processColumn_metric_num]
    have hk : k ∉ b.map Prod.fst := hd (k, q) (List.mem_cons_self _ _)
    rw [show dictInsert k q (⟨a, b, c, w⟩ : DecodeState).metrics = b ++ [(k, q)] from
      dictInsert_append k q b hk]
    have hnd2 : (rest.map Prod.fst).Nodup := (List.nodup_cons.mp (by simpa using hnd)).2
    have hhd : k ∉ rest.map Prod.fst := (List.nodup_cons.mp (by simpa using hnd)).1
    have hd2 : ∀ r ∈ rest, r.1 ∉ (b ++ [(k, q)]).map Prod.fst := by
      intro r hr hmem
      rw [List.map_append, List.mem_append] at hmem
      rcases hmem with hm | hm
      · exact hd r (List.mem_cons_of_mem _ hr) hm
      · have : r.1 = k := by simpa using hm
        exact hhd (this ▸ List.mem_map_of_mem Prod.fst hr)
    rw [ih a (b ++ [(k, q)]) c w hd2 hnd2]
    simp

theorem foldl_param_block (meta : Metadata) (ps : List (String × String)) :
    ∀ (a : List (String × String)) (b : List (String × ℚ)) (c : List (String × String))
      (w : List Warning),
    (∀ p ∈ ps, p.1 ∉ a.map Prod.fst) → (ps.map Prod.fst).Nodup →
    List.foldl (processColumn meta) ⟨a, b, c, w⟩
        (ps.map (fun p => ("param:" ++ p.1, Value.vStr p.2)))
      = ⟨a ++ ps, b, c, w⟩ := by
  induction ps with
  | nil =>
    intro a b c w _ _
    simp
  | cons p rest ih =>
    obtain ⟨k, s⟩ := p
    intro a b c w hd hnd
    rw [List.map_cons, List.foldl_cons, processColumn_param]
    have hk : k ∉ a.map Prod.fst := hd (k, s) (List.mem_cons_self _ _)
    rw [show dictInsert k s (⟨a, b, c, w⟩ : DecodeState).params = a ++ [(k, s)] from
      dictInsert_append k s a hk]
    have hnd2 : (rest.map Prod.fst).Nodup := (List.nodup_cons.mp (by simpa using hnd)).2
    have hhd : k ∉ rest.map Prod.fst := (List.nodup_cons.mp (by simpa using hnd)).1
    have hd2 : ∀ r ∈ rest, r.1 ∉ (a ++ [(k, s)]).map Prod.fst := by
      intro r hr hmem
      rw [List.map_append, List.mem_append] at hmem
      rcases hmem with hm | hm
      · exact hd r (List.mem_cons_of_mem _ hr) hm
      · have : r.1 = k := by simpa using hm
        exact hhd (this ▸ List.mem_map_of_mem Prod.fst hr)
    rw [ih (a ++ [(k, s)]) b c w hd2 hnd2]
    simp

theorem foldl_tag_block (meta : Metadata) (ts : List (String × String)) :
    ∀ (a : List (String × String)) (b : List (String × ℚ)) (c : List (String × String))
      (w : List Warning),
    (∀ p ∈ ts, p.1 ∉ c.map Prod.fst) → (ts.map Prod.fst).Nodup →
    List.foldl (processColumn meta) ⟨a, b, c, w⟩
        (ts.map (fun p => ("tag:" ++ p.1, Value.vStr p.2)))
      = ⟨a, b, c ++ ts, w⟩ := by
  induction ts with
  | nil =>
    intro a b c w _ _
    simp
  | cons p rest ih =>
    obtain ⟨k, s⟩ := p
    intro a b c w hd hnd
    rw [List.map_cons, List.foldl_cons, processColumn_tag]
    have hk : k ∉ c.map Prod.fst := hd (k, s) (List.mem_cons_self _ _)
    rw [show dictInsert k s (⟨a, b, c, w⟩ : DecodeState).tags = c ++ [(k, s)] from
      dictInsert_append k s c hk]
    have hnd2 : (rest.map Prod.fst).Nodup := (List.nodup_cons.mp (by simpa using hnd)).2
    have hhd : k ∉ rest.map Prod.fst := (List.nodup_cons.mp (by simpa using hnd)).1
    have hd2 : ∀ r ∈ rest, r.1 ∉ (c ++ [(k, s)]).map Prod.fst := by
      intro r hr hmem
      rw [List.map_append, List.mem_append] at hmem
      rcases hmem with hm | hm
      · exact hd r (List.mem_cons_of_mem _ hr) hm
      · have : r.1 = k := by simpa using hm
        exact hhd (this ▸ List.mem_map_of_mem Prod.fst hr)
    rw [ih a b (c ++ [(k, s)]) w hd2 hnd2]
    simp

theorem extract_encodeRun (meta : Metadata) (info : RunInfo) (data : RunData)
    (hp : (data.params.map Prod.fst).Nodup)
    (hm : (data.metrics.map Prod.fst).Nodup)
    (ht : (data.tags.map Prod.fst).Nodup) :
    extract_run_data (encodeRun info data) meta
      = ⟨data.params, data.metrics, data.tags, []⟩ := by
  unfold extract_run_data encodeRun initState
  rw [List.foldl_append, List.foldl_append, List.foldl_append]
  rw [foldl_system_block]
  rw [foldl_metric_block meta data.metrics [] [] [] [] (by simp) hm]
  rw [foldl_param_block meta data.params [] ([] ++ data.metrics) [] [] (by simp) hp]
  rw [foldl_tag_block meta data.tags ([] ++ data.params) ([] ++ data.metrics) [] []
    (by simp) ht]
  simp

/-! ## Pagination, import driver, artifact mirror, and deletion lemmas -/

theorem pageLoop_drop {α : Type} (runs : List α) (pageSize : ℕ) (hP : 0 < pageSize) :
    ∀ (fuel : ℕ) (token : Option ℕ),
      runs.length ≤ token.getD 0 + fuel * pageSize →
      pageLoop runs pageSize fuel token = runs.drop (token.getD 0) := by
  intro fuel
  induction fuel with
  | zero =>
    intro token h
    rw [Nat.zero_mul, Nat.add_zero] at h
    rw [pageLoop, List.drop_eq_nil_of_le h]
  | succ fuel ih =>
    intro token h
    rw [pageLoop]
    simp only [searchPage]
    by_cases hc : token.getD 0 + pageSize < runs.length
    · rw [if_pos hc]
      simp only []
      have h2 : runs.length ≤ (token.getD 0 + pageSize) + fuel * pageSize := by
        rw [Nat.succ_mul] at h
        omega
      have hrec := ih (some (token.getD 0 + pageSize)) (by simpa using h2)
      simp only [Option.getD_some] at hrec
      rw [hrec]
      have hdd : runs.drop (token.getD 0 + pageSize)
          = (runs.drop (token.getD 0)).drop pageSize := by
        rw [List.drop_drop, Nat.add_comm]
      rw [hdd, List.take_append_drop]
    · rw [if_neg hc]
      simp only []
      have hlen : (runs.drop (token.getD 0)).length ≤ pageSize := by
        rw [List.length_drop]
        omega
      rw [List.take_of_length_le hlen]

/-- Deciding whether one tracking-server call succeeded, as the predicate of
the fold characterizations below. -/
theorem importStep_foldl (meta : Metadata) (act : ℕ → DecodeState → Except String String) :
    ∀ (l : List (ℕ × List (String × Value))) (acc : List String × List ℕ),
      (l.foldl (importStep meta act) acc).2
          = acc.2 ++ (l.filter
              (fun ir => !(exceptOk (act ir.1 (extract_run_data ir.2 meta))))).map Prod.fst
    ∧ (l.foldl (importStep meta act) acc).1.length
          = acc.1.length + (l.filter
              (fun ir => exceptOk (act ir.1 (extract_run_data ir.2 meta)))).length := by
  intro l
  induction l with
  | nil =>
    intro acc
    simp
  | cons ir rest ih =>
    intro acc
    rw [List.foldl_cons]
    rcases hok : act ir.1 (extract_run_data ir.2 meta) with e | rid
    · have hstep : importStep meta act acc ir = (acc.1, acc.2 ++ [ir.1]) := by
        simp only [importStep]
        rw [hok]
      have hb : exceptOk (act ir.1 (extract_run_data ir.2 meta)) = false := by
        rw [hok]
        rfl
      constructor
      · rw [hstep, (ih (acc.1, acc.2 ++ [ir.1])).1, List.filter_cons]
        simp [hb, List.append_assoc]
      · rw [hstep, (ih (acc.1, acc.2 ++ [ir.1])).2, List.filter_cons]
        simp [hb]
    · have hstep : importStep meta act acc ir = (acc.1 ++ [rid], acc.2) := by
        simp only [importStep]
        rw [hok]
      have hb : exceptOk (act ir.1 (extract_run_data ir.2 meta)) = true := by
        rw [hok]
        rfl
      constructor
      · rw [hstep, (ih (acc.1 ++ [rid], acc.2)).1, List.filter_cons]
        simp [hb]
      · rw [hstep, (ih (acc.1 ++ [rid], acc.2)).2, List.filter_cons]
        simp [hb]
        omega

theorem filter_not_length {α : Type} (l : List α) (p : α → Bool) :
    (l.filter p).length + (l.filter (fun a => !(p a))).length = l.length := by
  induction l with
  | nil => rfl
  | cons a t ih =>
    by_cases h : p a = true
    · rw [List.filter_cons_of_pos h, List.filter_cons_of_neg (by simp [h])]
      simp only [List.length_cons]
      omega
    · rw [List.filter_cons_of_neg h, List.filter_cons_of_pos (by simp [Bool.eq_false_iff.mpr h])]
      simp only [List.length_cons]
      omega

theorem range_filter_beq (k n : ℕ) (h : k < n) :
    (List.range n).filter (fun i => i == k) = [k] := by
  induction n with
  | zero => omega
  | succ m ih =>
    rw [List.range_succ, List.filter_append]
    rcases Nat.lt_succ_iff_lt_or_eq.mp h with h2 | h2
    · rw [ih h2]
      have hne : m ≠ k := by omega
      simp [hne]
    · subst h2
      have hnone : ∀ i ∈ List.range k, ¬ ((i == k) = true) := by
        intro i hi
        simp only [List.mem_range] at hi
        simp only [beq_iff_eq]
        omega
      rw [List.filter_eq_nil_iff.mpr hnone]
      simp

theorem import_runs_spec (rows : List (List (String × Value))) (meta : Metadata)
    (act : ℕ → DecodeState → Except String String) :
    (import_runs rows meta act).total_runs_attempted = rows.length
  ∧ (import_runs rows meta act).successful_imports
      + (import_runs rows meta act).failed_imports = rows.length
  ∧ (import_runs rows meta act).failed_run_indices
      = (rows.enum.filter
          (fun ir => !(exceptOk (act ir.1 (extract_run_data ir.2 meta))))).map Prod.fst
  ∧ (import_runs rows meta act).failed_imports
      = (import_runs rows meta act).failed_run_indices.length := by
  have hf := importStep_foldl meta act rows.enum ([], [])
  have h1 : (import_runs rows meta act).failed_run_indices
      = (rows.enum.filter
          (fun ir => !(exceptOk (act ir.1 (extract_run_data ir.2 meta))))).map Prod.fst := by
    unfold import_runs
    simpa using hf.1
  have h2 : (import_runs rows meta act).successful_imports
      = (rows.enum.filter
          (fun ir => exceptOk (act ir.1 (extract_run_data ir.2 meta)))).length := by
    unfold import_runs
    simpa using hf.2
  have h3 : (import_runs rows meta act).failed_imports
      = (rows.enum.filter
          (fun ir => !(exceptOk (act ir.1 (extract_run_data ir.2 meta))))).length := by
    unfold import_runs
    simp only []
    rw [hf.1]
    simp
  refine ⟨rfl, ?_, h1, ?_⟩
  · rw [h2, h3]
    have := filter_not_length rows.enum
      (fun ir => exceptOk (act ir.1 (extract_run_data ir.2 meta)))
    rw [this]
    exact List.enum_length
  · rw [h3, h1, List.length_map]

theorem uploadStep_foldl (upload : String → Except String Unit) :
    ∀ (files : List String) (acc : ℕ × List String),
      files.foldl (uploadStep upload) acc
        = (acc.1 + (files.filter (fun f => exceptOk (upload f))).length,
           acc.2 ++ files.filter (fun f => !(exceptOk (upload f)))) := by
  intro files
  induction files with
  | nil =>
    intro acc
    simp
  | cons f rest ih =>
    intro acc
    rw [List.foldl_cons]
    rcases hok : upload f with e | u
    · have hstep : uploadStep upload acc f = (acc.1, acc.2 ++ [f]) := by
        simp only [uploadStep]
        rw [hok]
      have hb : exceptOk (upload f) = false := by
        rw [hok]
        rfl
      rw [hstep, ih (acc.1, acc.2 ++ [f]), List.filter_cons, List.filter_cons]
      simp [hb, List.append_assoc]
    · have hstep : uploadStep upload acc f = (acc.1 + 1, acc.2) := by
        simp only [uploadStep]
        rw [hok]
      have hb : exceptOk (upload f) = true := by
        rw [hok]
        rfl
      rw [hstep, ih (acc.1 + 1, acc.2), List.filter_cons, List.filter_cons]
      simp [hb]
      omega

theorem exportRunArtifacts_front {arts : List String} {dl : String → Except String Unit} :
    (exportRunArtifacts arts dl).1 <+: arts := by
  induction arts with
  | nil => exact List.nil_prefix
  | cons a rest ih =>
    rw [exportRunArtifacts]
    rcases hok : dl a with e | u
    · simp
    · simpa using ih

theorem exportRunArtifacts_all_ok {arts : List String} {dl : String → Except String Unit} :
    (exportRunArtifacts arts dl).2 = none → (exportRunArtifacts arts dl).1 = arts := by
  induction arts with
  | nil =>
    intro _
    rfl
  | cons a rest ih =>
    rw [exportRunArtifacts]
    rcases hok : dl a with e | u
    · intro h
      simp only [] at h
      exact absurd h (by simp)
    · intro h
      simp only [] at h ⊢
      rw [ih h]

theorem foldl_append_singleton {α : Type} (l : List α) :
    ∀ acc : List α, l.foldl (fun a r => a ++ [r]) acc = acc ++ l := by
  induction l with
  | nil =>
    intro acc
    simp
  | cons a t ih =>
    intro acc
    rw [List.foldl_cons, ih (acc ++ [a])]
    simp

/-! ## Claim theorems -/

/-- C1: encoding a run to its flat row and decoding that row with
`extract_run_data`, passing the Metadata Ledger accumulated by the export,
yields exactly the original parameters, metrics, and tags mappings,
value-for-value (here: the association lists themselves, hence every lookup),
with no warnings. -/
theorem round_trip_with_ledger (runs : List RunData) (info : RunInfo) (data : RunData)
    (_hmem : data ∈ runs)
    (hp : (data.params.map Prod.fst).Nodup)
    (hm : (data.metrics.map Prod.fst).Nodup)
    (ht : (data.tags.map Prod.fst).Nodup) :
    extract_run_data (encodeRun info data) (exportLedger runs)
      = ⟨data.params, data.metrics, data.tags, []⟩ :=
  extract_encodeRun (exportLedger runs) info data hp hm ht

/-- Witness for C1 at the repository's worked example. -/
theorem round_trip_with_ledger_witness :
    extract_run_data (encodeRun sampleInfo sampleData) (exportLedger [sampleData])
      = ⟨[("lr", "0.01")], [("loss", mkRat 53 100)], [("owner", "alice")], []⟩ :=
  round_trip_with_ledger [sampleData] sampleInfo sampleData
    (List.mem_singleton.mpr rfl) (by decide) (by decide) (by decide)

/-- C2: decoding an encoded flat row with the empty Metadata Ledger yields
the same three mappings as decoding with any ledger — prefix routing alone
reproduces the original parameters, metrics, and tags, so the decode result
is ledger-independent for encoder-produced rows. -/
theorem round_trip_without_ledger (info : RunInfo) (data : RunData) (meta : Metadata)
    (hp : (data.params.map Prod.fst).Nodup)
    (hm : (data.metrics.map Prod.fst).Nodup)
    (ht : (data.tags.map Prod.fst).Nodup) :
    extract_run_data (encodeRun info data) meta
      = extract_run_data (encodeRun info data) emptyMetadata
  ∧ extract_run_data (encodeRun info data) emptyMetadata
      = ⟨data.params, data.metrics, data.tags, []⟩ :=
  ⟨(extract_encodeRun meta info data hp hm ht).trans
      (extract_encodeRun emptyMetadata info data hp hm ht).symm,
   extract_encodeRun emptyMetadata info data hp hm ht⟩

/-- Witness for C2 at the worked example, against a nonempty ledger. -/
theorem round_trip_without_ledger_witness :
    extract_run_data (encodeRun sampleInfo sampleData) ⟨["extra"], [], []⟩
      = extract_run_data (encodeRun sampleInfo sampleData) emptyMetadata
  ∧ extract_run_data (encodeRun sampleInfo sampleData) emptyMetadata
      = ⟨[("lr", "0.01")], [("loss", mkRat 53 100)], [("owner", "alice")], []⟩ :=
  round_trip_without_ledger sampleInfo sampleData ⟨["extra"], [], []⟩
    (by decide) (by decide) (by decide)

/-- C3 counterexample: the column `epochs` with value `"10"` reaches the
shape-inference fallback and is classified as a parameter (integer-like,
small), yet the decode emits no warning at all — refuting the claim that
each of the three fallback classifications emits a warning. -/
theorem inference_param_no_warning_cex :
    (extract_run_data [("epochs", Value.vStr "10")] emptyMetadata).params = [("epochs", "10")]
  ∧ (extract_run_data [("epochs", Value.vStr "10")] emptyMetadata).warnings = [] := by
  decide

/-- C3 amended: of the three fallback classifications, the inferred-metric
and the inferred-non-numeric-parameter classifications emit a warning, while
the integer-like-small-parameter classification emits none. -/
theorem inference_warning_amended (col : String) (v : Value) (meta : Metadata)
    (hna : pyIsNa v = false)
    (hsys : col ∉ system_columns)
    (h1 : strStartsWith col "param:" = false)
    (h2 : strStartsWith col "metric:" = false)
    (h3 : strStartsWith col "tag:" = false)
    (hm1 : col ∉ meta.parameters) (hm2 : col ∉ meta.metrics) (hm3 : col ∉ meta.tags) :
    (∀ q : ℚ, pyFloat v = some q → q.den = 1 ∧ ratAbs q < 1000 →
        extract_run_data [(col, v)] meta = ⟨[(col, pyStr v)], [], [], []⟩)
  ∧ (∀ q : ℚ, pyFloat v = some q → ¬(q.den = 1 ∧ ratAbs q < 1000) →
        extract_run_data [(col, v)] meta = ⟨[], [(col, q)], [], [Warning.inferMetric col]⟩)
  ∧ (pyFloat v = none →
        extract_run_data [(col, v)] meta
          = ⟨[(col, pyStr v)], [], [], [Warning.inferParam col]⟩) := by
  have base : extract_run_data [(col, v)] meta = processColumn meta initState (col, v) := rfl
  refine ⟨?_, ?_, ?_⟩
  · intro q hq hint
    rw [base, processColumn_fallback meta initState col v hna hsys h1 h2 h3 hm1 hm2 hm3]
    simp only [hq]
    rw [if_pos hint]
    rfl
  · intro q hq hint
    rw [base, processColumn_fallback meta initState col v hna hsys h1 h2 h3 hm1 hm2 hm3]
    simp only [hq]
    rw [if_neg hint]
    rfl
  · intro hq
    rw [base, processColumn_fallback meta initState col v hna hsys h1 h2 h3 hm1 hm2 hm3]
    simp only [hq]
    rfl

/-- Witness for the amended C3: `auc=0.91` is inferred as a metric with a
warning; `note=hello` is inferred as a parameter with a warning. -/
theorem inference_warning_amended_witness :
    extract_run_data [("auc", Value.vStr "0.91")] emptyMetadata
      = ⟨[], [("auc", mkRat 91 100)], [], [Warning.inferMetric "auc"]⟩
  ∧ extract_run_data [("note", Value.vStr "hello")] emptyMetadata
      = ⟨[("note", "hello")], [], [], [Warning.inferParam "note"]⟩ := by
  constructor
  · exact (inference_warning_amended "auc" (Value.vStr "0.91") emptyMetadata (by decide)
      (by decide) (by decide) (by decide) (by decide) (by decide) (by decide)
      (by decide)).2.1 (mkRat 91 100) (by decide) (by decide)
  · exact (inference_warning_amended "note" (Value.vStr "hello") emptyMetadata (by decide)
      (by decide) (by decide) (by decide) (by decide) (by decide) (by decide)
      (by decide)).2.2 (by decide)

/-- C6: a column routed to the metrics group — by `metric:` prefix or by
ledger membership — whose value does not parse as a float is dropped from
every output mapping (in particular it is not defaulted to zero), a
non-fatal warning is recorded, and the decode still completes. -/
theorem metric_parse_failure_dropped (name : String) (v : Value) (meta : Metadata)
    (hna : pyIsNa v = false) (hq : pyFloat v = none) :
    extract_run_data [("metric:" ++ name, v)] meta
      = ⟨[], [], [], [Warning.metricParseFail name v]⟩
  ∧ (name ∉ system_columns → strStartsWith name "param:" = false →
     strStartsWith name "metric:" = false → strStartsWith name "tag:" = false →
     name ∉ meta.parameters → name ∈ meta.metrics →
     extract_run_data [(name, v)] meta
       = ⟨[], [], [], [Warning.metricParseFail name v]⟩) := by
  constructor
  · have base : extract_run_data [("metric:" ++ name, v)] meta
        = processColumn meta initState ("metric:" ++ name, v) := rfl
    rw [base, processColumn_metric_parse_fail meta initState name v hna hq]
    rfl
  · intro hsys h1 h2 h3 hm1 hmem
    have base : extract_run_data [(name, v)] meta
        = processColumn meta initState (name, v) := rfl
    rw [base,
      processColumn_ledger_metric_fail meta initState name v hna hsys h1 h2 h3 hm1 hmem hq]
    rfl

/-- Witness for C6: the unparsable metric value `"abc"` is dropped with a
warning on both the prefix route and the ledger route. -/
theorem metric_parse_failure_dropped_witness :
    extract_run_data [("metric:loss", Value.vStr "abc")] ⟨[], ["loss"], []⟩
      = ⟨[], [], [], [Warning.metricParseFail "loss" (Value.vStr "abc")]⟩
  ∧ extract_run_data [("loss", Value.vStr "abc")] ⟨[], ["loss"], []⟩
      = ⟨[], [], [], [Warning.metricParseFail "loss" (Value.vStr "abc")]⟩ := by
  have h := metric_parse_failure_dropped "loss" (Value.vStr "abc") ⟨[], ["loss"], []⟩
    (by decide) (by decide)
  exact ⟨h.1, h.2 (by decide) (by decide) (by decide) (by decide) (by decide) (by decide)⟩

/-- C9: in the shape-inference fallback, a float-parseable value is
classified as a parameter exactly when it equals its integer truncation
(denominator 1) and its absolute value is strictly below the constant 1000;
any other float-parseable value is classified as a metric. -/
theorem inference_threshold_1000 (col : String) (q : ℚ) (meta : Metadata)
    (hsys : col ∉ system_columns)
    (h1 : strStartsWith col "param:" = false)
    (h2 : strStartsWith col "metric:" = false)
    (h3 : strStartsWith col "tag:" = false)
    (hm1 : col ∉ meta.parameters) (hm2 : col ∉ meta.metrics) (hm3 : col ∉ meta.tags) :
    (q.den = 1 ∧ ratAbs q < 1000 →
       extract_run_data [(col, Value.vNum q)] meta
         = ⟨[(col, pyStr (Value.vNum q))], [], [], []⟩)
  ∧ (¬(q.den = 1 ∧ ratAbs q < 1000) →
       extract_run_data [(col, Value.vNum q)] meta
         = ⟨[], [(col, q)], [], [Warning.inferMetric col]⟩) := by
  have base : extract_run_data [(col, Value.vNum q)] meta
      = processColumn meta initState (col, Value.vNum q) := rfl
  constructor
  · intro hint
    rw [base,
      processColumn_fallback meta initState col (Value.vNum q) rfl hsys h1 h2 h3 hm1 hm2 hm3]
    simp only [pyFloat]
    rw [if_pos hint]
    rfl
  · intro hint
    rw [base,
      processColumn_fallback meta initState col (Value.vNum q) rfl hsys h1 h2 h3 hm1 hm2 hm3]
    simp only [pyFloat]
    rw [if_neg hint]
    rfl

/-- Witness for C9: the integer 10 is classified as a parameter; the
boundary integer 1000 (not strictly below 1000) is classified as a metric. -/
theorem inference_threshold_1000_witness :
    extract_run_data [("epochs", Value.vNum (mkRat 10 1))] emptyMetadata
      = ⟨[("epochs", pyStr (Value.vNum (mkRat 10 1)))], [], [], []⟩
  ∧ extract_run_data [("big", Value.vNum (mkRat 1000 1))] emptyMetadata
      = ⟨[], [("big", mkRat 1000 1)], [], [Warning.inferMetric "big"]⟩ := by
  constructor
  · exact (inference_threshold_1000 "epochs" (mkRat 10 1) emptyMetadata (by decide) (by decide)
      (by decide) (by decide) (by decide) (by decide) (by decide)).1 (by decide)
  · exact (inference_threshold_1000 "big" (mkRat 1000 1) emptyMetadata (by decide) (by decide)
      (by decide) (by decide) (by decide) (by decide) (by decide)).2 (by decide)

/-- C5: the Import Driver records exactly the raising rows as failed and
continues past failures: the summary's attempted count equals the number of
rows, the succeeded and failed counts partition it, and the failed-index
list is precisely the indices of rows whose processing raised. -/
theorem import_driver_summary (rows : List (List (String × Value))) (meta : Metadata)
    (act : ℕ → DecodeState → Except String String) :
    (import_runs rows meta act).total_runs_attempted = rows.length
  ∧ (import_runs rows meta act).successful_imports
      + (import_runs rows meta act).failed_imports = rows.length
  ∧ (import_runs rows meta act).failed_run_indices
      = (rows.enum.filter
          (fun ir => !(exceptOk (act ir.1 (extract_run_data ir.2 meta))))).map Prod.fst
  ∧ (import_runs rows meta act).failed_imports
      = (import_runs rows meta act).failed_run_indices.length :=
  import_runs_spec rows meta act

/-- C4 counterexample: a batch whose only row holds an unparsable metric
value imports successfully — the metric is dropped with a warning inside the
decoder, no exception reaches the driver, and the failed-index list is empty
rather than `[0]`. -/
theorem unparsable_metric_row_not_failed_cex :
    (import_runs [badMetricRow] emptyMetadata actAlwaysOk).failed_run_indices ≠ [0]
  ∧ (import_runs [badMetricRow] emptyMetadata actAlwaysOk).failed_run_indices = []
  ∧ (import_runs [badMetricRow] emptyMetadata actAlwaysOk).successful_imports = 1
  ∧ (extract_run_data badMetricRow emptyMetadata).metrics = []
  ∧ (extract_run_data badMetricRow emptyMetadata).warnings
      = [Warning.metricParseFail "loss" (Value.vStr "abc")] := by
  decide

/-- C4 amended: an unparsable metric value does not mark its row failed (it
is dropped with a warning and the row succeeds); the rows marked failed are
exactly those whose processing raises an exception, so when exactly the
processing of row k raises, every other row succeeds and the summary
reports exactly `[k]` as the failed indices. -/
theorem single_raising_row_failed_amended (rows : List (List (String × Value)))
    (meta : Metadata) (act : ℕ → DecodeState → Except String String) (k : ℕ)
    (hk : k < rows.length)
    (hact : ∀ ir ∈ rows.enum,
        exceptOk (act ir.1 (extract_run_data ir.2 meta)) = (ir.1 != k)) :
    (import_runs rows meta act).failed_run_indices = [k]
  ∧ (import_runs rows meta act).successful_imports = rows.length - 1 := by
  have hs := import_runs_spec rows meta act
  have hfail : (import_runs rows meta act).failed_run_indices = [k] := by
    rw [hs.2.2.1]
    have hcong : rows.enum.filter
          (fun ir => !(exceptOk (act ir.1 (extract_run_data ir.2 meta))))
        = rows.enum.filter (fun ir => ir.1 == k) := by
      apply List.filter_congr
      intro ir hmem
      rw [hact ir hmem]
      simp [bne]
    rw [hcong]
    have hmf : (List.range rows.length).filter (fun i => i == k)
        = (rows.enum.filter (fun ir => ir.1 == k)).map Prod.fst := by
      rw [← List.enum_map_fst rows, List.filter_map]
      rfl
    rw [← hmf, range_filter_beq k rows.length hk]
  refine ⟨hfail, ?_⟩
  have hpart := hs.2.1
  have hlen := hs.2.2.2
  rw [hfail] at hlen
  simp only [List.length_singleton] at hlen
  omega

/-- Witness for the amended C4: with two rows and a service oracle that
raises exactly on row 0, the failed indices are `[0]` and one row
succeeds. -/
theorem single_raising_row_failed_amended_witness :
    (import_runs sampleRows emptyMetadata actFailFirst).failed_run_indices = [0]
  ∧ (import_runs sampleRows emptyMetadata actFailFirst).successful_imports = 1 :=
  single_raising_row_failed_amended sampleRows emptyMetadata actFailFirst 0
    (by decide) (by decide)

/-- C7: the export pagination loop yields exactly the experiment's runs — no
duplicates, no omissions — for every positive page size, stopping exactly
when the continuation token is absent. -/
theorem pagination_complete {α : Type} (runs : List α) (pageSize : ℕ) (hP : 0 < pageSize) :
    export_runs_paged runs pageSize = runs := by
  unfold export_runs_paged
  have hfuel : runs.length ≤ (none : Option ℕ).getD 0 + (runs.length + 1) * pageSize := by
    simp only [Option.getD_none, Nat.zero_add]
    calc runs.length ≤ runs.length + 1 := Nat.le_succ _
      _ ≤ (runs.length + 1) * pageSize := Nat.le_mul_of_pos_right _ hP
  have h := pageLoop_drop runs pageSize hP (runs.length + 1) none hfuel
  simpa using h

/-- Witness for C7 at the spec's example: 12 runs served in pages of at most
5 (pages of 5, 5, 2). -/
theorem pagination_complete_witness :
    export_runs_paged (List.range 12) 5 = List.range 12 :=
  pagination_complete (List.range 12) 5 (by decide)

/-- C8 counterexample: in the export direction a single artifact download
failure ends that run's whole artifact loop — artifact `"a2"` is never
attempted after `"a1"` fails — refuting the claim that the remaining
artifacts of the same run are still attempted in both directions. -/
theorem export_artifact_failure_skips_rest_cex :
    exportRunArtifacts ["a1", "a2"] dlFailFirst = (["a1"], some "io error")
  ∧ "a2" ∉ (exportRunArtifacts ["a1", "a2"] dlFailFirst).1 := by
  decide

/-- C8 amended: in the import direction every artifact of a run is attempted
and a failing upload is skipped in isolation; in the export direction a
failing download is logged and ends that run's artifact loop (the attempted
artifacts are a maximal ok-front of the run's artifact list, all of them on
success), while the per-run guard keeps the run-level loop going over every
run in both cases. -/
theorem artifact_failure_isolation_amended (files : List String)
    (upload : String → Except String Unit) (runsArts : List (String × List String))
    (download : String → String → Except String Unit) (arts : List String)
    (dl : String → Except String Unit) :
    (importRunArtifacts files upload).1 + (importRunArtifacts files upload).2.length
        = files.length
  ∧ (importRunArtifacts files upload).2 = files.filter (fun f => !(exceptOk (upload f)))
  ∧ (exportArtifactsPhase runsArts download).map Prod.fst = runsArts.map Prod.fst
  ∧ (exportRunArtifacts arts dl).1 <+: arts
  ∧ ((exportRunArtifacts arts dl).2 = none → (exportRunArtifacts arts dl).1 = arts) := by
  have hu := uploadStep_foldl upload files (0, [])
  refine ⟨?_, ?_, ?_, exportRunArtifacts_front, exportRunArtifacts_all_ok⟩
  · unfold importRunArtifacts
    rw [hu]
    simp only [Nat.zero_add, List.nil_append]
    exact filter_not_length files (fun f => exceptOk (upload f))
  · unfold importRunArtifacts
    rw [hu]
    simp
  · unfold exportArtifactsPhase
    rw [List.map_map]
    rfl

/-- Witness for the amended C8: a failing upload of `"a1"` leaves `"a2"`
attempted on import; the run-level export loop still visits both runs; an
all-ok export run copies every artifact. -/
theorem artifact_failure_isolation_amended_witness :
    (importRunArtifacts ["a1", "a2"] dlFailFirst).1
        + (importRunArtifacts ["a1", "a2"] dlFailFirst).2.length = 2
  ∧ (importRunArtifacts ["a1", "a2"] dlFailFirst).2 = ["a1"]
  ∧ (exportArtifactsPhase [("r1", ["a1"]), ("r2", ["a2"])] dlPerRun).map Prod.fst
      = ["r1", "r2"]
  ∧ (exportRunArtifacts ["b1", "b2"] dlAllOk).1 = ["b1", "b2"] := by
  have h := artifact_failure_isolation_amended ["a1", "a2"] dlFailFirst
    [("r1", ["a1"]), ("r2", ["a2"])] dlPerRun ["b1", "b2"] dlAllOk
  exact ⟨h.1, h.2.1.trans (by decide), h.2.2.1.trans (by decide), h.2.2.2.2 (by decide)⟩

/-- C10: `delete_all_runs_in_experiment` deletes exactly the runs returned
by its single search capped at 50000 results: for at most 50000 runs all
are deleted; beyond 50000 the excess runs are never deleted. -/
theorem clear_runs_caps_at_50000 {α : Type} (runs : List α) :
    delete_all_runs_in_experiment runs = runs.take 50000
  ∧ (runs.length ≤ 50000 → delete_all_runs_in_experiment runs = runs)
  ∧ (runs.Nodup → ∀ r ∈ runs.drop 50000, r ∉ delete_all_runs_in_experiment runs) := by
  have hbase : delete_all_runs_in_experiment runs = runs.take 50000 := by
    unfold delete_all_runs_in_experiment searchRunsCapped
    rw [foldl_append_singleton]
    simp
  refine ⟨hbase, ?_, ?_⟩
  · intro hlen
    rw [hbase, List.take_of_length_le hlen]
  · intro hnd r hr hmem
    rw [hbase] at hmem
    exact (List.disjoint_take_drop hnd (le_refl 50000)) hmem hr

/-- Witness for C10: a 3-run experiment is fully cleared; in a 50001-run
experiment the run at index 50000 is never deleted. -/
theorem clear_runs_caps_at_50000_witness :
    delete_all_runs_in_experiment (List.range 3) = List.range 3
  ∧ (50000 : ℕ) ∉ delete_all_runs_in_experiment (List.range 50001) := by
  constructor
  · exact (clear_runs_caps_at_50000 (List.range 3)).2.1 (by decide)
  · refine (clear_runs_caps_at_50000 (List.range 50001)).2.2 (List.nodup_range 50001) 50000 ?_
    rw [show (50001 : ℕ) = 50000 + 1 from rfl, List.range_succ,
        List.drop_left' (List.length_range 50000)]
    exact List.mem_singleton.mpr rfl

end MlflowCliTools
